import Mathlib

/-!
Verification development for the community-board backend (mysql-knex).

The database is shallowly embedded as lists of rows, one list per table, mirroring
the Knex migrations (`001_create_users_table` … likes).  Repository and service
methods from `src/domains/users` are translated into pure functions over this
state; fallible operations return `Except`.  Auto-increment ids are modelled with
SQLite semantics (`max existing id + 1`), and `knex.fn.now()` is modelled by a
clock field `now` that no operation advances (no property here depends on time).
-/

namespace CommunityBoard

/-- Role column of the `users` table (`enum('role', ['user', 'admin'])`). -/
inductive UserRole
  | user
  | admin
  deriving DecidableEq, Repr

/-- Status column of the `users` table (`enum('status', ['active', 'suspended', 'deleted'])`). -/
inductive UserStatus
  | active
  | suspended
  | deleted
  deriving DecidableEq, Repr

/-- Target type of a like (`enum('target_type', ['post', 'comment'])`). -/
inductive TargetType
  | post
  | comment
  deriving DecidableEq, Repr

/-- Raw row of the `users` table, as in `UserEntity` of `src/domains/users/types.ts`. -/
structure UserEntity where
  id : Nat
  email : String
  password : String
  nickname : String
  profile_url : Option String
  role : UserRole
  status : UserStatus
  created_at : Nat
  updated_at : Nat
  deriving DecidableEq, Repr

/-- Row of the `categories` table (migration `002_create_categories_table`). -/
structure CategoryRow where
  id : Nat
  name : String
  description : Option String
  created_at : Nat
  updated_at : Nat
  deriving DecidableEq, Repr

/-- Row of the `posts` table. -/
structure PostRow where
  id : Nat
  title : String
  content : String
  user_id : Nat
  category_id : Nat
  likes_count : Nat
  created_at : Nat
  updated_at : Nat
  deriving DecidableEq, Repr

/-- Row of the `comments` table (`parent_id` is a nullable self reference). -/
structure CommentRow where
  id : Nat
  content : String
  user_id : Nat
  post_id : Nat
  parent_id : Option Nat
  likes_count : Nat
  created_at : Nat
  updated_at : Nat
  deriving DecidableEq, Repr

/-- Row of the `tags` table (migration `003_create_tags_table`). -/
structure TagRow where
  id : Nat
  name : String
  created_at : Nat
  updated_at : Nat
  deriving DecidableEq, Repr

/-- Row of the `post_tags` join table (composite primary key `(post_id, tag_id)`). -/
structure PostTagRow where
  post_id : Nat
  tag_id : Nat
  created_at : Nat
  updated_at : Nat
  deriving DecidableEq, Repr

/-- Row of the `likes` table; `target_id` has no foreign key (polymorphic target). -/
structure LikeRow where
  id : Nat
  user_id : Nat
  target_type : TargetType
  target_id : Nat
  created_at : Nat
  updated_at : Nat
  deriving DecidableEq, Repr

/-- The whole relational store: one list per table created by the migrations. -/
structure Db where
  users : List UserEntity := []
  categories : List CategoryRow := []
  posts : List PostRow := []
  comments : List CommentRow := []
  tags : List TagRow := []
  post_tags : List PostTagRow := []
  likes : List LikeRow := []
  now : Nat := 0
  deriving DecidableEq, Repr

/-- Auto-increment id generation, SQLite style: one more than the largest id in use. -/
def freshId (ids : List Nat) : Nat := ids.foldl max 0 + 1

/-- Storage-native error shapes surfaced by the database engine through Knex. -/
inductive DbError
  | uniqueViolation (table column : String)
  | fkViolation (table : String)
  deriving DecidableEq, Repr

/-- Model of the external bcrypt salted hash.  No claim in this development depends
on the concrete value, only on its being a function of the plaintext. -/
def bcryptHash (plain : String) : String := "$2b$10$" ++ plain

/-- Insert into `users`, enforcing the schema constraints of
`001_create_users_table`: unique `email`, unique `nickname`.  On success returns
the generated id and the new state, as the Knex `insert` call does. -/
def usersTableInsert (db : Db) (email password nickname : String)
    (profileUrl : Option String) (role : UserRole) (status : UserStatus) :
    Except DbError (Nat × Db) :=
  if db.users.any (fun u => u.email == email) then
    .error (.uniqueViolation "users" "email")
  else if db.users.any (fun u => u.nickname == nickname) then
    .error (.uniqueViolation "users" "nickname")
  else
    let id := freshId (db.users.map (·.id))
    let row : UserEntity :=
      { id := id, email := email, password := password, nickname := nickname,
        profile_url := profileUrl, role := role, status := status,
        created_at := db.now, updated_at := db.now }
    .ok (id, { db with users := db.users ++ [row] })

/-- Domain model `User` from `src/domains/users/model.ts` (camelCase fields,
password kept private in the class but present in the object). -/
structure User where
  id : Nat
  email : String
  password : String
  nickname : String
  profileUrl : Option String
  role : UserRole
  status : UserStatus
  createdAt : Nat
  updatedAt : Nat
  deriving DecidableEq, Repr

/-- Factory `User.fromEntity` of the domain model. -/
def User.fromEntity (e : UserEntity) : User :=
  { id := e.id, email := e.email, password := e.password, nickname := e.nickname,
    profileUrl := e.profile_url, role := e.role, status := e.status,
    createdAt := e.created_at, updatedAt := e.updated_at }

/-- The public shape `SafeUser` from `src/domains/users/types.ts`: it has no
password field at all. -/
structure SafeUser where
  id : Nat
  email : String
  nickname : String
  profileUrl : Option String
  role : UserRole
  status : UserStatus
  createdAt : Nat
  updatedAt : Nat
  deriving DecidableEq, Repr

/-- Method `User.toJSON` of the domain model: every field except the password. -/
def User.toJSON (u : User) : SafeUser :=
  { id := u.id, email := u.email, nickname := u.nickname, profileUrl := u.profileUrl,
    role := u.role, status := u.status, createdAt := u.createdAt, updatedAt := u.updatedAt }

/-- Data transfer object `CreateUserDTO` (repository layer, hashed password). -/
structure CreateUserDTO where
  email : String
  password : String
  nickname : String
  profile_url : Option String := none
  role : Option UserRole := none
  status : Option UserStatus := none
  deriving DecidableEq, Repr

/-- Data transfer object `UpdateUserDTO`: every field optional, only supplied
fields are written (`profile_url` may be set to null, hence the nested option). -/
structure UpdateUserDTO where
  email : Option String := none
  password : Option String := none
  nickname : Option String := none
  profile_url : Option (Option String) := none
  role : Option UserRole := none
  status : Option UserStatus := none
  deriving DecidableEq, Repr

/-- Service-layer input `CreateUserInput` (plaintext password). -/
structure CreateUserInput where
  email : String
  password : String
  nickname : String
  profileUrl : Option String := none
  deriving DecidableEq, Repr

/-- Service-layer input `UpdateUserInput`. -/
structure UpdateUserInput where
  email : Option String := none
  password : Option String := none
  nickname : Option String := none
  profileUrl : Option (Option String) := none
  deriving DecidableEq, Repr

namespace UserRepository

/-- The TypeScript expression `data.profile_url || null`: an empty string is falsy
and becomes null. -/
def jsOrNull (s : Option String) : Option String :=
  match s with
  | some s => if s == "" then none else some s
  | none => none

/-- Repository `findById`: point lookup, absence is not an error. -/
def findById (db : Db) (id : Nat) : Option User :=
  (db.users.find? (fun u => u.id == id)).map User.fromEntity

/-- Repository `findByEmail`. -/
def findByEmail (db : Db) (email : String) : Option User :=
  (db.users.find? (fun u => u.email == email)).map User.fromEntity

/-- Repository `existsByEmail`: count of rows with the email, optionally excluding
one id, compared against zero. -/
def existsByEmail (db : Db) (email : String) (excludeId : Option Nat) : Bool :=
  let rows := db.users.filter (fun u => u.email == email)
  let rows : List UserEntity :=
    match excludeId with
    | some ex => rows.filter (fun u => u.id != ex)
    | none => rows
  decide (0 < rows.length)

/-- Repository `existsByNickname`, same shape as `existsByEmail`. -/
def existsByNickname (db : Db) (nickname : String) (excludeId : Option Nat) : Bool :=
  let rows := db.users.filter (fun u => u.nickname == nickname)
  let rows : List UserEntity :=
    match excludeId with
    | some ex => rows.filter (fun u => u.id != ex)
    | none => rows
  decide (0 < rows.length)

/-- Error outcomes of `UserRepository.create`: either the storage-native error
propagated unchanged (the method has no try/catch), or the explicit
`Error('Failed to create user')` thrown when the re-read finds nothing. -/
inductive CreateError
  | storage (e : DbError)
  | createFailed
  deriving DecidableEq, Repr

/-- Repository `create`: raw insert (defaults `role: 'user'`, `status: 'active'`),
then a re-read of the generated id.  Note that a constraint violation from the
insert is NOT translated; it propagates as-is. -/
def create (db : Db) (data : CreateUserDTO) : Except CreateError (User × Db) :=
  match usersTableInsert db data.email data.password data.nickname
      (jsOrNull data.profile_url) (data.role.getD .user) (data.status.getD .active) with
  | .error e => .error (.storage e)
  | .ok (id, db') =>
    match findById db' id with
    | some u => .ok (u, db')
    | none => .error .createFailed

/-- The update set is empty when no field of the DTO is supplied. -/
def UpdateSetEmpty (data : UpdateUserDTO) : Bool :=
  data.email.isNone && data.password.isNone && data.nickname.isNone &&
    data.profile_url.isNone && data.role.isNone && data.status.isNone

/-- Error outcome of `UserRepository.update`: Knex refuses to compile an UPDATE
statement whose SET clause is empty (its `Empty .update() call detected!` error),
which is the only failure of this method. -/
inductive UpdateError
  | emptyUpdateCall
  deriving DecidableEq, Repr

/-- Application of an `UpdateUserDTO` to one row: supplied fields overwrite,
everything else keeps its value. -/
def applyUpdate (u : UserEntity) (d : UpdateUserDTO) : UserEntity :=
  { u with
    email := d.email.getD u.email,
    password := d.password.getD u.password,
    nickname := d.nickname.getD u.nickname,
    profile_url := d.profile_url.getD u.profile_url,
    role := d.role.getD u.role,
    status := d.status.getD u.status }

/-- Repository `update`: builds the update set from the supplied fields, runs the
UPDATE, returns null (not an error) when no row matched, otherwise re-reads. -/
def update (db : Db) (id : Nat) (data : UpdateUserDTO) :
    Except UpdateError (Option User × Db) :=
  if UpdateSetEmpty data then
    .error .emptyUpdateCall
  else
    let affectedRows := (db.users.filter (fun u => u.id == id)).length
    if affectedRows == 0 then
      .ok (none, db)
    else
      let db' := { db with users := db.users.map (fun u => if u.id == id then applyUpdate u data else u) }
      .ok (findById db' id, db')

end UserRepository

namespace UserService

/-- Typed failures of the user service; repository-level failures are carried
through unchanged (the TypeScript exceptions simply propagate). -/
inductive Error
  | emailAlreadyExists
  | nicknameAlreadyExists
  | userNotFound
  | updateFailed
  | repoCreate (e : UserRepository.CreateError)
  | repoUpdate (e : UserRepository.UpdateError)
  deriving DecidableEq, Repr

/-- Service `createUser` (the `register` operation): fail-fast duplicate checks,
email first then nickname, then hash and create. -/
def createUser (db : Db) (input : CreateUserInput) : Except Error (User × Db) :=
  if UserRepository.existsByEmail db input.email none then
    .error .emailAlreadyExists
  else if UserRepository.existsByNickname db input.nickname none then
    .error .nicknameAlreadyExists
  else
    match UserRepository.create db
        { email := input.email, password := bcryptHash input.password,
          nickname := input.nickname, profile_url := input.profileUrl } with
    | .ok (u, db') => .ok (u, db')
    | .error e => .error (.repoCreate e)

/-- Service `getUserProfile`: safe view of one user, `User not found` otherwise. -/
def getUserProfile (db : Db) (id : Nat) : Except Error SafeUser :=
  match UserRepository.findById db id with
  | none => .error .userNotFound
  | some u => .ok u.toJSON

/-- Service `updateUser`: re-runs each uniqueness check, excluding the user's own
id, only when the supplied value is defined and differs from the current one. -/
def updateUser (db : Db) (id : Nat) (input : UpdateUserInput) : Except Error (User × Db) :=
  match UserRepository.findById db id with
  | none => .error .userNotFound
  | some existingUser =>
    if (match input.email with
        | some e => e != existingUser.email && UserRepository.existsByEmail db e (some id)
        | none => false) then
      .error .emailAlreadyExists
    else if (match input.nickname with
        | some n => n != existingUser.nickname && UserRepository.existsByNickname db n (some id)
        | none => false) then
      .error .nicknameAlreadyExists
    else
      let updateData : UpdateUserDTO :=
        { email := input.email, nickname := input.nickname,
          profile_url := input.profileUrl, password := input.password.map bcryptHash }
      match UserRepository.update db id updateData with
      | .error e => .error (.repoUpdate e)
      | .ok (none, _) => .error .updateFailed
      | .ok (some u, db') => .ok (u, db')

end UserService

/-! Cascade semantics of the schema.  The `comments` table carries
`ON DELETE CASCADE` on `post_id` and on the self reference `parent_id`, so a row
dies when its post dies or when its parent comment (transitively) dies.  The
transitive closure is computed by iterating one cascade pass often enough. -/

/-- One cascade pass over `comments.parent_id`: a live comment whose parent id is
already dead joins the dead set. -/
def commentsCascadeStep (cs : List CommentRow) (dead : List Nat) : List Nat :=
  cs.foldl
    (fun acc c =>
      if acc.contains c.id then acc
      else
        match c.parent_id with
        | some p => if acc.contains p then acc ++ [c.id] else acc
        | none => acc)
    dead

/-- Transitive closure of the parent cascade from a set of root dead ids; one pass
per row suffices for any chain in the table. -/
def commentsDeadIds (cs : List CommentRow) (roots : List Nat) : List Nat :=
  (List.range cs.length).foldl (fun acc _ => commentsCascadeStep cs acc) roots

/-- Deletion of one post, with exactly the cascades the migrations declare:
comments via `comments.post_id` (then the parent cascade), join rows via
`post_tags.post_id`.  The `likes` table has no foreign key on its polymorphic
`target_id`, so no like row is touched. -/
def postsDelete (db : Db) (postId : Nat) : Db :=
  let deadComments :=
    commentsDeadIds db.comments
      ((db.comments.filter (fun c => c.post_id == postId)).map (·.id))
  { db with
    posts := db.posts.filter (fun p => p.id != postId),
    comments := db.comments.filter (fun c => !deadComments.contains c.id),
    post_tags := db.post_tags.filter (fun pt => pt.post_id != postId) }

/-! The seed files, in their execution order `001_categories`, `002_users`,
`003_tags`.  Each does `del()` on its table — with the cascades and restrictions
the schema declares — and then inserts the baseline rows with explicit ids. -/

/-- Baseline categories inserted by `001_categories`. -/
def seedCategories (now : Nat) : List CategoryRow :=
  [ { id := 1, name := "공지사항", description := some "중요한 공지사항을 위한 카테고리입니다.",
      created_at := now, updated_at := now },
    { id := 2, name := "자유게시판", description := some "자유로운 주제의 게시글을 위한 카테고리입니다.",
      created_at := now, updated_at := now },
    { id := 3, name := "Q&A", description := some "질문과 답변을 위한 카테고리입니다.",
      created_at := now, updated_at := now },
    { id := 4, name := "이벤트", description := some "이벤트 관련 게시글을 위한 카테고리입니다.",
      created_at := now, updated_at := now } ]

/-- The admin row inserted by `002_users` (id 1, bcrypt-hashed fixed password). -/
def seedAdminUser (now : Nat) : UserEntity :=
  { id := 1, email := "admin@community.local", password := bcryptHash "admin123!",
    nickname := "커뮤니티 관리자", profile_url := none, role := .admin, status := .active,
    created_at := now, updated_at := now }

/-- Baseline tags inserted by `003_tags`. -/
def seedTags (now : Nat) : List TagRow :=
  [ { id := 1, name := "공지", created_at := now, updated_at := now },
    { id := 2, name := "정보", created_at := now, updated_at := now },
    { id := 3, name := "질문", created_at := now, updated_at := now },
    { id := 4, name := "이벤트", created_at := now, updated_at := now } ]

/-- Seed `001_categories`: `del()` on `categories` is blocked (RESTRICT) whenever a
post still references one of the rows being deleted; otherwise delete all and
insert the four baseline rows. -/
def categoriesSeed (db : Db) : Except DbError Db :=
  if db.posts.any (fun p => db.categories.any (fun c => c.id == p.category_id)) then
    .error (.fkViolation "posts")
  else
    .ok { db with categories := seedCategories db.now }

/-- Seed `002_users`: `del()` on `users` cascades through `posts.user_id`,
`comments.user_id`, `comments.post_id` (plus the parent cascade) and
`likes.user_id`; then the single admin row is inserted into the now-empty table. -/
def usersSeed (db : Db) : Db :=
  let deadUsers := db.users.map (·.id)
  let deadPosts := (db.posts.filter (fun p => deadUsers.contains p.user_id)).map (·.id)
  let rootDeadComments :=
    (db.comments.filter
      (fun c => deadUsers.contains c.user_id || deadPosts.contains c.post_id)).map (·.id)
  let deadComments := commentsDeadIds db.comments rootDeadComments
  { db with
    users := [seedAdminUser db.now],
    posts := db.posts.filter (fun p => !deadUsers.contains p.user_id),
    comments := db.comments.filter (fun c => !deadComments.contains c.id),
    post_tags := db.post_tags.filter (fun pt => !deadPosts.contains pt.post_id),
    likes := db.likes.filter (fun l => !deadUsers.contains l.user_id) }

/-- Seed `003_tags`: `del()` on `tags` cascades through `post_tags.tag_id`, then
the four baseline tags are inserted. -/
def tagsSeed (db : Db) : Db :=
  let deadTags := db.tags.map (·.id)
  { db with
    tags := seedTags db.now,
    post_tags := db.post_tags.filter (fun pt => !deadTags.contains pt.tag_id) }

/-- The seed loader: the three seed files in directory order. -/
def runSeeds (db : Db) : Except DbError Db :=
  match categoriesSeed db with
  | .error e => .error e
  | .ok db1 => .ok (tagsSeed (usersSeed db1))

/-! The schema manager, at the granularity the migrations act on: which tables
exist.  The ordered forward sequence creates the seven tables; each `down` is
`dropTableIfExists` of the table its `up` created. -/

/-- The tables created by the ordered migration sequence, in creation order. -/
def migrationTables : List String :=
  ["users", "categories", "tags", "posts", "comments", "post_tags", "likes"]

/-- Forward step of one migration: `createTable`, which fails if the table exists. -/
def migrationUp (store : List String) (t : String) : Except DbError (List String) :=
  if store.contains t then .error (.uniqueViolation "schema" t) else .ok (store ++ [t])

/-- Inverse step of one migration: `dropTableIfExists`. -/
def migrationDown (store : List String) (t : String) : List String :=
  store.filter (fun x => x != t)

/-- `migrate.latest`: apply every migration in ascending order. -/
def migrateLatest (store : List String) : Except DbError (List String) :=
  migrationTables.foldlM migrationUp store

/-- Full rollback: undo every migration in descending order. -/
def migrateRollbackAll (store : List String) : List String :=
  migrationTables.reverse.foldl migrationDown store

namespace CommentService

/-- Typed failures of the comment service. -/
inductive Error
  | postNotFound
  | invalidParent
  deriving DecidableEq, Repr

/-- Modelled from the spec: the Comment Service implementation
(`src/domains/comments`) is not part of the source snapshot — only the comments
schema migration is.  Per §4.3: `create(postId, userId, content, parentId?)` — if
`parentId` is supplied, loads the parent comment and rejects with `InvalidParent`
unless the parent's `postId` equals the target `postId` AND the parent itself has
no `parentId`; absence of the referenced post is `PostNotFound`. -/
def create (db : Db) (postId userId : Nat) (content : String) (parentId : Option Nat) :
    Except Error (CommentRow × Db) :=
  if !db.posts.any (fun p => p.id == postId) then
    .error .postNotFound
  else
    let insertRow : Except Error (CommentRow × Db) :=
      let row : CommentRow :=
        { id := freshId (db.comments.map (·.id)), content := content, user_id := userId,
          post_id := postId, parent_id := parentId, likes_count := 0,
          created_at := db.now, updated_at := db.now }
      .ok (row, { db with comments := db.comments ++ [row] })
    match parentId with
    | none => insertRow
    | some pid =>
      match db.comments.find? (fun c => c.id == pid) with
      | none => .error .invalidParent
      | some parent =>
        if parent.post_id == postId && parent.parent_id.isNone then insertRow
        else .error .invalidParent

/-- One comment-creation request, for reasoning about sequences of service calls. -/
structure Req where
  postId : Nat
  userId : Nat
  content : String
  parentId : Option Nat
  deriving DecidableEq, Repr

/-- Effect of one service call on the state: a rejected call changes nothing. -/
def createStep (db : Db) (r : Req) : Db :=
  match create db r.postId r.userId r.content r.parentId with
  | .ok (_, db') => db'
  | .error _ => db

/-- Effect of a sequence of service calls. -/
def runCreates (db : Db) (rs : List Req) : Db :=
  rs.foldl createStep db

end CommentService

/-- Well-formedness of the comments table that the schema guarantees (`id` is the
primary key, `parent_id` is a foreign key into the same table). -/
def Db.commentsKeyWF (db : Db) : Prop :=
  db.comments.Pairwise (fun a b => a.id ≠ b.id) ∧
    (∀ c ∈ db.comments, ∀ p, c.parent_id = some p → ∃ r ∈ db.comments, r.id = p)

/-- The one-level nesting invariant: no stored comment's parent is itself a reply. -/
def Db.oneLevelComments (db : Db) : Prop :=
  ∀ c ∈ db.comments, ∀ p, c.parent_id = some p →
    ∀ r ∈ db.comments, r.id = p → r.parent_id = none

/-- Same-post parent invariant maintained by the comment service: a parent
reference stays inside one post. -/
def Db.commentsSamePost (db : Db) : Prop :=
  ∀ c ∈ db.comments, ∀ p, c.parent_id = some p →
    ∃ r ∈ db.comments, r.id = p ∧ r.post_id = c.post_id

/-- Insert into `likes`, enforcing the schema of the likes migration: the foreign
key `user_id -> users.id` and the unique tuple `(user_id, target_type, target_id)`. -/
def likesInsert (db : Db) (userId : Nat) (tt : TargetType) (targetId : Nat) :
    Except DbError Db :=
  if !db.users.any (fun u => u.id == userId) then
    .error (.fkViolation "likes")
  else if db.likes.any
      (fun l => l.user_id == userId && l.target_type == tt && l.target_id == targetId) then
    .error (.uniqueViolation "likes" "user_id_target_type_target_id")
  else
    let row : LikeRow :=
      { id := freshId (db.likes.map (·.id)), user_id := userId, target_type := tt,
        target_id := targetId, created_at := db.now, updated_at := db.now }
    .ok { db with likes := db.likes ++ [row] }

/-- Operations that can touch the `likes` table: guarded insert, unlike (by row id
or by tuple), and the `ON DELETE CASCADE` fan-out of a user deletion. -/
inductive LikeTableOp
  | insert (userId : Nat) (tt : TargetType) (targetId : Nat)
  | deleteById (id : Nat)
  | deleteByTuple (userId : Nat) (tt : TargetType) (targetId : Nat)
  | userDeleteCascade (userId : Nat)
  deriving DecidableEq, Repr

/-- Effect of one likes-table operation; a rejected insert changes nothing. -/
def likeStep (db : Db) (op : LikeTableOp) : Db :=
  match op with
  | .insert u tt tid =>
    match likesInsert db u tt tid with
    | .ok db' => db'
    | .error _ => db
  | .deleteById id => { db with likes := db.likes.filter (fun l => l.id != id) }
  | .deleteByTuple u tt tid =>
    { db with likes :=
        db.likes.filter (fun l => !(l.user_id == u && l.target_type == tt && l.target_id == tid)) }
  | .userDeleteCascade u => { db with likes := db.likes.filter (fun l => l.user_id != u) }

/-- The uniqueness invariant of the likes table: at most one row per tuple. -/
def Db.likesUnique (db : Db) : Prop :=
  db.likes.Pairwise
    (fun a b => ¬(a.user_id = b.user_id ∧ a.target_type = b.target_type ∧ a.target_id = b.target_id))

/-- Referential consistency that the schema's foreign keys guarantee for every
stored state (the polymorphic `likes.target_id` deliberately has no key). -/
def Db.fkConsistent (db : Db) : Prop :=
  (∀ p ∈ db.posts, (∃ u ∈ db.users, u.id = p.user_id) ∧ ∃ c ∈ db.categories, c.id = p.category_id) ∧
  (∀ c ∈ db.comments, (∃ u ∈ db.users, u.id = c.user_id) ∧ ∃ p ∈ db.posts, p.id = c.post_id) ∧
  (∀ pt ∈ db.post_tags, (∃ p ∈ db.posts, p.id = pt.post_id) ∧ ∃ t ∈ db.tags, t.id = pt.tag_id) ∧
  (∀ l ∈ db.likes, ∃ u ∈ db.users, u.id = l.user_id)

/-- A user row used by concrete check states. -/
def exUserA : UserEntity :=
  { id := 1, email := "a@x.com", password := "hash-a", nickname := "nick-a",
    profile_url := none, role := .user, status := .active, created_at := 0, updated_at := 0 }

/-- A second user row used by concrete check states. -/
def exUserB : UserEntity :=
  { id := 2, email := "b@x.com", password := "hash-b", nickname := "nick-b",
    profile_url := none, role := .user, status := .active, created_at := 0, updated_at := 0 }

/-- Concrete state holding exactly `exUserA`. -/
def dbOneUser : Db := { users := [exUserA] }

/-- Concrete state holding `exUserA` and `exUserB`. -/
def dbTwoUsers : Db := { users := [exUserA, exUserB] }

/-- A category row used by concrete check states. -/
def exCategory : CategoryRow :=
  { id := 1, name := "General", description := none, created_at := 0, updated_at := 0 }

/-- Post 1 by user 1 in category 1, used by concrete check states. -/
def exPost1 : PostRow :=
  { id := 1, title := "first", content := "body-1", user_id := 1, category_id := 1,
    likes_count := 0, created_at := 0, updated_at := 0 }

/-- Post 2 by user 1 in category 1, used by concrete check states. -/
def exPost2 : PostRow :=
  { id := 2, title := "second", content := "body-2", user_id := 1, category_id := 1,
    likes_count := 0, created_at := 0, updated_at := 0 }

/-- A like by user 1 on post 1, used by concrete check states. -/
def exLikePost1 : LikeRow :=
  { id := 1, user_id := 1, target_type := .post, target_id := 1,
    created_at := 0, updated_at := 0 }

/-- A tag association of post 1, used by concrete check states. -/
def exPostTag1 : PostTagRow :=
  { post_id := 1, tag_id := 1, created_at := 0, updated_at := 0 }

/-- Concrete state with a post and a like on that post (no comments). -/
def dbPostWithLike : Db :=
  { users := [exUserA], categories := [exCategory], posts := [exPost1],
    likes := [exLikePost1] }

/-- Concrete state with two posts and one tag association on post 1. -/
def dbTwoPosts : Db :=
  { users := [exUserA], categories := [exCategory], posts := [exPost1, exPost2],
    post_tags := [exPostTag1] }

/-! Shared helper lemmas. -/

theorem decide_pos_filter_length (p : α → Bool) (l : List α) :
    decide (0 < (l.filter p).length) = l.any p := by
  induction l with
  | nil => rfl
  | cons a t ih =>
    cases h : p a <;> simp [List.filter_cons, List.any_cons, h, ← ih]

theorem existsByEmail_none_eq_any (db : Db) (e : String) :
    UserRepository.existsByEmail db e none = db.users.any (fun u => u.email == e) := by
  simp [UserRepository.existsByEmail, decide_pos_filter_length]

theorem existsByNickname_none_eq_any (db : Db) (n : String) :
    UserRepository.existsByNickname db n none = db.users.any (fun u => u.nickname == n) := by
  simp [UserRepository.existsByNickname, decide_pos_filter_length]

theorem usersTableInsert_ok {db : Db} {e pw n : String} {pu : Option String}
    {r : UserRole} {s : UserStatus} {id : Nat} {db' : Db}
    (h : usersTableInsert db e pw n pu r s = .ok (id, db')) :
    db'.users = db.users ++
      [{ id := freshId (db.users.map (·.id)), email := e, password := pw, nickname := n,
         profile_url := pu, role := r, status := s,
         created_at := db.now, updated_at := db.now }] := by
  unfold usersTableInsert at h
  split at h
  · exact absurd h (by simp)
  · split at h
    · exact absurd h (by simp)
    · simp only [Except.ok.injEq, Prod.mk.injEq] at h
      rw [← h.2]

theorem repoCreate_ok_users {db : Db} {data : CreateUserDTO} {u : User} {db' : Db}
    (h : UserRepository.create db data = .ok (u, db')) :
    ∃ row, db'.users = db.users ++ [row] ∧ row.email = data.email ∧
      row.nickname = data.nickname := by
  unfold UserRepository.create at h
  split at h
  · exact absurd h (by simp)
  · rename_i id dbi hins
    split at h
    · rename_i w hfind
      simp only [Except.ok.injEq, Prod.mk.injEq] at h
      exact ⟨_, by rw [← h.2]; exact usersTableInsert_ok hins, rfl, rfl⟩
    · exact absurd h (by simp)

theorem createUser_ok_users {db : Db} {i : CreateUserInput} {u : User} {db' : Db}
    (h : UserService.createUser db i = .ok (u, db')) :
    ∃ row, db'.users = db.users ++ [row] ∧ row.email = i.email ∧
      row.nickname = i.nickname := by
  unfold UserService.createUser at h
  split at h
  · exact absurd h (by simp)
  · split at h
    · exact absurd h (by simp)
    · split at h
      · rename_i w dbw hc
        simp only [Except.ok.injEq, Prod.mk.injEq] at h
        obtain ⟨row, hrow, he, hn⟩ := repoCreate_ok_users hc
        exact ⟨row, by rw [← h.2]; exact hrow, he, hn⟩
      · exact absurd h (by simp)

theorem createUser_emailTaken {db : Db} (i : CreateUserInput)
    (h : UserRepository.existsByEmail db i.email none = true) :
    UserService.createUser db i = .error .emailAlreadyExists := by
  simp [UserService.createUser, h]

theorem createUser_nicknameTaken {db : Db} (i : CreateUserInput)
    (h1 : UserRepository.existsByEmail db i.email none = false)
    (h2 : UserRepository.existsByNickname db i.nickname none = true) :
    UserService.createUser db i = .error .nicknameAlreadyExists := by
  simp [UserService.createUser, h1, h2]

/-- C1: registering with an email already present fails with the email-specific
duplicate error (code exception `Email already exists`, the spec's `EmailTaken`)
before any write; with a fresh email but a taken nickname it fails with the
nickname-specific error (`Nickname already exists`, the spec's `NicknameTaken`);
and register followed by register with the same email (different nickname) fails
with the email error, while register followed by register with the same nickname
(and an email fresh for the whole state) fails with the nickname error.  Failures
are thrown before the insert, so no row is created. -/
theorem c1_register_duplicate_detection (db : Db) (i1 i2 : CreateUserInput) :
    (UserRepository.existsByEmail db i1.email none = true →
      UserService.createUser db i1 = .error .emailAlreadyExists) ∧
    (UserRepository.existsByEmail db i1.email none = false →
      UserRepository.existsByNickname db i1.nickname none = true →
      UserService.createUser db i1 = .error .nicknameAlreadyExists) ∧
    (∀ u db₁, UserService.createUser db i1 = .ok (u, db₁) →
      i2.email = i1.email →
      UserService.createUser db₁ i2 = .error .emailAlreadyExists) ∧
    (∀ u db₁, UserService.createUser db i1 = .ok (u, db₁) →
      UserRepository.existsByEmail db i2.email none = false →
      i2.email ≠ i1.email → i2.nickname = i1.nickname →
      UserService.createUser db₁ i2 = .error .nicknameAlreadyExists) := by
  refine ⟨fun h => createUser_emailTaken i1 h,
          fun h1 h2 => createUser_nicknameTaken i1 h1 h2, ?_, ?_⟩
  · intro u db₁ hok heq
    obtain ⟨row, hrow, he, _⟩ := createUser_ok_users hok
    apply createUser_emailTaken
    rw [existsByEmail_none_eq_any, hrow]
    simp [he, heq]
  · intro u db₁ hok hfresh hne hnick
    obtain ⟨row, hrow, he, hn⟩ := createUser_ok_users hok
    apply createUser_nicknameTaken
    · rw [existsByEmail_none_eq_any, hrow]
      rw [existsByEmail_none_eq_any] at hfresh
      simp [List.any_append, hfresh, he, Ne.symm hne]
    · rw [existsByNickname_none_eq_any, hrow]
      simp [hn, hnick]

/-- Witness for C1 at a concrete state: `a@x.com` is taken in `dbOneUser`, and
registering with it fails with the email-duplicate error. -/
theorem c1_register_duplicate_detection_witness :
    UserRepository.existsByEmail dbOneUser "a@x.com" none = true ∧
    UserService.createUser dbOneUser
      { email := "a@x.com", password := "pw", nickname := "nick-b" } =
      .error .emailAlreadyExists := by
  constructor
  · decide
  · exact (c1_register_duplicate_detection dbOneUser
      { email := "a@x.com", password := "pw", nickname := "nick-b" }
      { email := "a@x.com", password := "pw", nickname := "nick-b" }).1 (by decide)

/-- C4, counterexample: `UserRepository.create` on a duplicate email does NOT
yield a translated domain error — the storage-native unique-violation error
propagates unchanged (the method has no try/catch), contradicting the claim that
every repository create translates constraint breaches to the domain taxonomy. -/
theorem c4_no_translation_counterexample :
    UserRepository.create dbOneUser
      { email := "a@x.com", password := "h2", nickname := "fresh-nick" } =
      .error (.storage (.uniqueViolation "users" "email")) := by
  rfl

/-- C4, amended: `UserRepository.create` performs no translation.  A duplicate
email fails with the storage-native unique violation on `users.email`, and a
fresh email with a duplicate nickname fails with the storage-native unique
violation on `users.nickname`, each propagated as-is; the typed duplicate errors
of the taxonomy are produced by the service pre-checks instead (C1). -/
theorem c4_create_raw_storage_error (db : Db) (data : CreateUserDTO) :
    (db.users.any (fun u => u.email == data.email) = true →
      UserRepository.create db data = .error (.storage (.uniqueViolation "users" "email"))) ∧
    (db.users.any (fun u => u.email == data.email) = false →
      db.users.any (fun u => u.nickname == data.nickname) = true →
      UserRepository.create db data = .error (.storage (.uniqueViolation "users" "nickname"))) := by
  constructor
  · intro h
    simp [UserRepository.create, usersTableInsert, h]
  · intro h1 h2
    simp [UserRepository.create, usersTableInsert, h1, h2]

/-- Witness for C4 at a concrete state: a fresh email with the taken nickname
`nick-a` fails with the raw storage violation on `users.nickname`. -/
theorem c4_create_raw_storage_error_witness :
    UserRepository.create dbOneUser
      { email := "fresh@x.com", password := "h2", nickname := "nick-a" } =
      .error (.storage (.uniqueViolation "users" "nickname")) :=
  (c4_create_raw_storage_error dbOneUser
    { email := "fresh@x.com", password := "h2", nickname := "nick-a" }).2
    (by decide) (by decide)

theorem find?_id_map_password (l : List UserEntity) (f : UserEntity → String) (id : Nat) :
    (l.map (fun r => { r with password := f r })).find? (fun u => u.id == id)
      = (l.find? (fun u => u.id == id)).map (fun r => { r with password := f r }) := by
  induction l with
  | nil => rfl
  | cons a t ih => cases h : a.id == id <;> simp [List.find?_cons, h, ih]

/-- C10: the public user view is password-independent.  `User.toJSON` gives the
same `SafeUser` for any two users differing only in the stored hash, and
`getUserProfile` gives identical results on two database states that differ only
in the password column (rewritten by an arbitrary function of the row); the
`SafeUser` shape carries no password field at all. -/
theorem c10_profile_password_independent :
    (∀ (u : User) (p : String), User.toJSON { u with password := p } = User.toJSON u) ∧
    (∀ (db : Db) (f : UserEntity → String) (id : Nat),
      UserService.getUserProfile
        { db with users := db.users.map (fun r => { r with password := f r }) } id =
        UserService.getUserProfile db id) := by
  refine ⟨fun u p => rfl, fun db f id => ?_⟩
  simp only [UserService.getUserProfile, UserRepository.findById, find?_id_map_password]
  cases h : db.users.find? (fun u => u.id == id) <;>
    simp [h, User.fromEntity, User.toJSON]

/-- C5: applying the full ordered migration sequence to an empty store and then
rolling the whole sequence back restores the empty store, with none of the seven
tables remaining, and each migration's down step (`dropTableIfExists`) exactly
inverts its up step (`createTable`) from any store not already holding the table. -/
theorem c5_migrations_roundtrip :
    migrateLatest [] = .ok migrationTables ∧
    migrateRollbackAll migrationTables = [] ∧
    (∀ t ∈ migrationTables, t ∉ migrateRollbackAll migrationTables) ∧
    (∀ (s : List String) (t : String), ¬ s.contains t →
      migrationUp s t = .ok (s ++ [t]) ∧ migrationDown (s ++ [t]) t = s) := by
  have hback : migrateRollbackAll migrationTables = [] := by rfl
  refine ⟨by rfl, hback, ?_, ?_⟩
  · intro t _ hmem
    rw [hback] at hmem
    exact absurd hmem (List.not_mem_nil t)
  · intro s t h
    have hmem : t ∉ s := by simpa using h
    constructor
    · simp [migrationUp, hmem]
    · have hne : ∀ x ∈ s, (x != t) = true := by
        intro x hx
        simp only [bne_iff_ne, ne_eq]
        exact fun hxt => hmem (hxt ▸ hx)
      simp [migrationDown, List.filter_append, List.filter_eq_self.mpr hne]

/-- Witness for C5: one concrete up/down inversion, with the freshness hypothesis
discharged by evaluation. -/
theorem c5_migrations_roundtrip_witness :
    migrationUp ["users"] "posts" = .ok ["users", "posts"] ∧
    migrationDown (["users"] ++ ["posts"]) "posts" = ["users"] :=
  (c5_migrations_roundtrip).2.2.2 ["users"] "posts" (by decide)

/-- C7, counterexample: `update` with a partial object supplying no fields does
not return the row-or-null result the claim promises — Knex refuses the empty
UPDATE statement and the call fails, even though a row with the id exists. -/
theorem c7_empty_update_counterexample :
    UserRepository.update dbOneUser 1 {} = .error .emptyUpdateCall ∧
    ∀ r : Option User × Db, UserRepository.update dbOneUser 1 {} ≠ .ok r := by
  refine ⟨by rfl, ?_⟩
  intro r h
  rw [show UserRepository.update dbOneUser 1 {} = .error .emptyUpdateCall from by rfl] at h
  exact absurd h (by simp)

/-- C7, amended: for a partial object supplying at least one field, `update`
changes only the supplied fields of the matched row, leaves every other row
untouched, and returns null (not an error) when no row matches; for a partial
object supplying no fields the call fails with the query builder's
empty-update error before reaching the database. -/
theorem c7_update_only_supplied_fields (db : Db) (id : Nat) (d : UpdateUserDTO) :
    (UserRepository.UpdateSetEmpty d = true →
      UserRepository.update db id d = .error .emptyUpdateCall) ∧
    (UserRepository.UpdateSetEmpty d = false →
      ((∀ u ∈ db.users, u.id ≠ id) → UserRepository.update db id d = .ok (none, db)) ∧
      (∃ res db', UserRepository.update db id d = .ok (res, db') ∧
        List.Forall₂ (fun u u' =>
          (u.id ≠ id → u' = u) ∧
          (u.id = id →
            u'.id = u.id ∧
            (d.email = none → u'.email = u.email) ∧
            (d.password = none → u'.password = u.password) ∧
            (d.nickname = none → u'.nickname = u.nickname) ∧
            (d.profile_url = none → u'.profile_url = u.profile_url) ∧
            (d.role = none → u'.role = u.role) ∧
            (d.status = none → u'.status = u.status)))
          db.users db'.users)) := by
  constructor
  · intro h
    simp [UserRepository.update, h]
  · intro h
    constructor
    · intro hall
      have hfil : db.users.filter (fun u => u.id == id) = [] := by
        refine List.filter_eq_nil_iff.mpr ?_
        intro u hu
        simp [hall u hu]
      simp [UserRepository.update, h, hfil]
    · by_cases hm : (db.users.filter (fun u => u.id == id)).length = 0
      · refine ⟨none, db, by simp [UserRepository.update, h, hm], ?_⟩
        rw [List.forall₂_same]
        intro u hu
        have hne : u.id ≠ id := by
          intro heq
          have : u ∈ db.users.filter (fun u => u.id == id) :=
            List.mem_filter.mpr ⟨hu, by simp [heq]⟩
          rw [List.length_eq_zero.mp hm] at this
          exact absurd this (List.not_mem_nil u)
        exact ⟨fun _ => rfl, fun heq => absurd heq hne⟩
      · refine ⟨UserRepository.findById { db with users := db.users.map (fun u => if u.id == id then UserRepository.applyUpdate u d else u) } id, { db with users := db.users.map (fun u => if u.id == id then UserRepository.applyUpdate u d else u) }, ?_, ?_⟩
        · unfold UserRepository.update
          rw [if_neg (by simp [h]), if_neg (by simpa using hm)]
        · show List.Forall₂ _ db.users
            (db.users.map (fun u => if u.id == id then UserRepository.applyUpdate u d else u))
          rw [List.forall₂_map_right_iff, List.forall₂_same]
          intro u _
          by_cases hid : u.id = id
          · refine ⟨fun hne => absurd hid hne, fun _ => ?_⟩
            rw [if_pos (by simp [hid] : (u.id == id) = true)]
            refine ⟨rfl, ?_, ?_, ?_, ?_, ?_, ?_⟩ <;>
              · intro hn
                simp [UserRepository.applyUpdate, hn]
          · constructor
            · intro _
              rw [if_neg (by simp [hid])]
            · exact fun heq => absurd heq hid

/-- Witness for C7 at a concrete state: a one-field partial against an id with no
matching row returns null and the unchanged state. -/
theorem c7_update_only_supplied_fields_witness :
    UserRepository.update dbOneUser 7 { nickname := some "renamed" } =
      .ok (none, dbOneUser) :=
  ((c7_update_only_supplied_fields dbOneUser 7 { nickname := some "renamed" }).2
    (by decide)).1 (by decide)

theorem findById_some_entity {db : Db} {id : Nat} {u : User}
    (h : UserRepository.findById db id = some u) :
    ∃ e ∈ db.users, db.users.find? (fun x => x.id == id) = some e ∧ e.id = id ∧
      User.fromEntity e = u := by
  unfold UserRepository.findById at h
  cases hf : db.users.find? (fun x => x.id == id) with
  | none => rw [hf] at h; exact absurd h (by simp)
  | some e =>
    rw [hf] at h
    have hpe : (e.id == id) = true := List.find?_some (p := fun x : CommunityBoard.UserEntity => x.id == id) hf
    exact ⟨e, List.mem_of_find?_eq_some hf, rfl, eq_of_beq hpe, Option.some.inj h⟩

theorem find?_map_pred (g : UserEntity → UserEntity) (p : UserEntity → Bool)
    (hg : ∀ u, p (g u) = p u) (l : List UserEntity) :
    (l.map g).find? p = (l.find? p).map g := by
  induction l with
  | nil => rfl
  | cons a t ih =>
    simp only [List.map_cons, List.find?_cons, hg a]
    cases hpa : p a <;> simp [hpa, ih]

theorem findById_map_applyUpdate {db : Db} {id : Nat} {e0 : UserEntity} (d : UpdateUserDTO)
    (hfq : db.users.find? (fun x => x.id == id) = some e0) :
    UserRepository.findById
      { db with users := db.users.map (fun v => if v.id == id then UserRepository.applyUpdate v d else v) } id
    = some (User.fromEntity (UserRepository.applyUpdate e0 d)) := by
  have hpe : (e0.id == id) = true := List.find?_some (p := fun x : CommunityBoard.UserEntity => x.id == id) hfq
  have hid0 : e0.id = id := eq_of_beq hpe
  unfold UserRepository.findById
  show Option.map User.fromEntity
      ((db.users.map (fun v => if v.id == id then UserRepository.applyUpdate v d else v)).find?
        (fun x => x.id == id)) = _
  rw [find?_map_pred _ _
    (fun v => by by_cases h : (v.id == id) = true <;> simp [h, UserRepository.applyUpdate]), hfq]
  simp [hid0]

theorem repoUpdate_found {db : Db} {id : Nat} {e0 : UserEntity} (d : UpdateUserDTO)
    (hfq : db.users.find? (fun x => x.id == id) = some e0)
    (hne : UserRepository.UpdateSetEmpty d = false) :
    ∃ db', UserRepository.update db id d =
      .ok (some (User.fromEntity (UserRepository.applyUpdate e0 d)), db') := by
  have hmem : e0 ∈ db.users := List.mem_of_find?_eq_some hfq
  have hpe : (e0.id == id) = true := List.find?_some (p := fun x : CommunityBoard.UserEntity => x.id == id) hfq
  have hnn : db.users.filter (fun x => x.id == id) ≠ [] :=
    List.ne_nil_of_mem (List.mem_filter.mpr ⟨hmem, hpe⟩)
  have hpos : (db.users.filter (fun x => x.id == id)).length ≠ 0 :=
    fun hz => hnn (List.length_eq_zero.mp hz)
  refine ⟨{ db with users := db.users.map (fun v => if v.id == id then UserRepository.applyUpdate v d else v) }, ?_⟩
  unfold UserRepository.update
  rw [if_neg (by simp [hne]), if_neg (by simpa using hpos)]
  show Except.ok (UserRepository.findById
      { db with users := db.users.map (fun v => if v.id == id then UserRepository.applyUpdate v d else v) } id, _) = _
  rw [findById_map_applyUpdate d hfq]

/-- C6: for an existing user, `updateUser` re-runs a uniqueness check (excluding
the user's own id) only when the supplied email (resp. nickname) differs from the
current value.  Supplying the current email/nickname unchanged never produces a
duplicate error and the update succeeds; supplying a differing value that is
taken by some other row produces the corresponding duplicate error. -/
theorem c6_update_same_value_no_duplicate (db : Db) (id : Nat) (input : UpdateUserInput)
    (u : User) (hfind : UserRepository.findById db id = some u) :
    ((input.email = none ∨ input.email = some u.email) →
     (input.nickname = none ∨ input.nickname = some u.nickname) →
     (input.email ≠ none ∨ input.nickname ≠ none) →
      ∃ u' db', UserService.updateUser db id input = .ok (u', db')) ∧
    (∀ e, input.email = some e → e ≠ u.email →
      UserRepository.existsByEmail db e (some id) = true →
      UserService.updateUser db id input = .error .emailAlreadyExists) ∧
    ((input.email = none ∨ input.email = some u.email) →
     ∀ n, input.nickname = some n → n ≠ u.nickname →
      UserRepository.existsByNickname db n (some id) = true →
      UserService.updateUser db id input = .error .nicknameAlreadyExists) := by
  obtain ⟨e0, hmem, hfq, hid0, hfe⟩ := findById_some_entity hfind
  refine ⟨?_, ?_, ?_⟩
  · intro hem hni hsome
    have hge : (match input.email with
        | some e => e != u.email && UserRepository.existsByEmail db e (some id)
        | none => false) = false := by
      rcases hem with h | h <;> simp [h]
    have hgn : (match input.nickname with
        | some n => n != u.nickname && UserRepository.existsByNickname db n (some id)
        | none => false) = false := by
      rcases hni with h | h <;> simp [h]
    have hne : UserRepository.UpdateSetEmpty
        { email := input.email, nickname := input.nickname,
          profile_url := input.profileUrl, password := input.password.map bcryptHash } = false := by
      rcases hsome with h | h
      · cases hin : input.email with
        | none => exact absurd hin h
        | some e => simp [UserRepository.UpdateSetEmpty, hin]
      · cases hin : input.nickname with
        | none => exact absurd hin h
        | some n => simp [UserRepository.UpdateSetEmpty, hin]
    obtain ⟨db2, hup⟩ := repoUpdate_found
      { email := input.email, nickname := input.nickname,
        profile_url := input.profileUrl, password := input.password.map bcryptHash } hfq hne
    simp only [UserService.updateUser, hfind, hge, hgn, Bool.false_eq_true, if_false, hup]
    exact ⟨_, _, rfl⟩
  · intro e he hne hex
    have hb : (e != u.email) = true := by simp [hne]
    simp [UserService.updateUser, hfind, he, hb, hex]
  · intro hem n hn hne hex
    have hge : (match input.email with
        | some e => e != u.email && UserRepository.existsByEmail db e (some id)
        | none => false) = false := by
      rcases hem with h | h <;> simp [h]
    have hb : (n != u.nickname) = true := by simp [hne]
    simp [UserService.updateUser, hfind, hge, hn, hb, hex]

/-- Witness for C6 at a concrete state: updating user 1 while supplying the
current email unchanged succeeds. -/
theorem c6_update_same_value_no_duplicate_witness :
    ∃ u' db', UserService.updateUser dbOneUser 1 { email := some "a@x.com" } =
      .ok (u', db') :=
  (c6_update_same_value_no_duplicate dbOneUser 1 { email := some "a@x.com" }
      (User.fromEntity exUserA) (by rfl)).1
    (Or.inr rfl) (Or.inl rfl) (Or.inl (by simp))

theorem foldl_fixed {α β : Type} (f : β → α → β) (b : β) (l : List α)
    (h : ∀ a ∈ l, f b a = b) : l.foldl f b = b := by
  induction l with
  | nil => rfl
  | cons a t ih =>
    rw [List.foldl_cons, h a (List.mem_cons_self a t)]
    exact ih (fun x hx => h x (List.mem_cons_of_mem a hx))

theorem pairwise_id_unique {l : List CommentRow}
    (h : l.Pairwise (fun a b => a.id ≠ b.id)) :
    ∀ a ∈ l, ∀ b ∈ l, a.id = b.id → a = b := by
  induction l with
  | nil => intro a ha; exact absurd ha (List.not_mem_nil a)
  | cons x t ih =>
    rw [List.pairwise_cons] at h
    intro a ha b hb heq
    rcases List.mem_cons.mp ha with rfl | ha' <;> rcases List.mem_cons.mp hb with rfl | hb'
    · rfl
    · exact absurd heq (h.1 b hb')
    · exact absurd heq.symm (h.1 a ha')
    · exact ih h.2 a ha' b hb' heq

theorem mem_postRoots {cs : List CommentRow} {P x : Nat} :
    x ∈ (cs.filter (fun c => c.post_id == P)).map (·.id) ↔
      ∃ c ∈ cs, c.post_id = P ∧ c.id = x := by
  constructor
  · intro h
    obtain ⟨c, hc, hcx⟩ := List.mem_map.mp h
    obtain ⟨hcm, hcP⟩ := List.mem_filter.mp hc
    exact ⟨c, hcm, eq_of_beq hcP, hcx⟩
  · rintro ⟨c, hcm, hcP, rfl⟩
    exact List.mem_map.mpr ⟨c, List.mem_filter.mpr ⟨hcm, by simp [hcP]⟩, rfl⟩

theorem contains_iff_mem (l : List Nat) (x : Nat) : l.contains x = true ↔ x ∈ l :=
  ⟨fun h => List.mem_of_elem_eq_true h, fun h => List.elem_eq_true_of_mem h⟩

theorem cascadeStep_closed (cs : List CommentRow) (roots : List Nat)
    (hclosed : ∀ c ∈ cs, ¬ roots.contains c.id = true →
      ∀ p, c.parent_id = some p → roots.contains p = false) :
    commentsCascadeStep cs roots = roots := by
  unfold commentsCascadeStep
  apply foldl_fixed
  intro c hc
  by_cases h1 : c.id ∈ roots
  · simp [h1]
  · have h1' : ¬ roots.contains c.id = true := fun hcc =>
      absurd ((contains_iff_mem _ _).mp hcc) h1
    cases hp : c.parent_id with
    | none => simp [h1, hp]
    | some p =>
      have h2 : p ∉ roots := by
        intro hpm
        exact Bool.noConfusion
          ((((contains_iff_mem _ _).mpr hpm).symm).trans (hclosed c hc h1' p hp))
      simp [h1, hp, h2]

theorem cascadeStep_fixed {cs : List CommentRow} {P : Nat}
    (hids : cs.Pairwise (fun a b => a.id ≠ b.id))
    (hsp : ∀ c ∈ cs, ∀ p, c.parent_id = some p →
      ∃ r ∈ cs, r.id = p ∧ r.post_id = c.post_id) :
    commentsCascadeStep cs ((cs.filter (fun c => c.post_id == P)).map (·.id))
      = (cs.filter (fun c => c.post_id == P)).map (·.id) := by
  apply cascadeStep_closed
  intro c hc h1 p hp
  cases h2 : ((cs.filter (fun c => c.post_id == P)).map (·.id)).contains p
  · rfl
  · exfalso
    obtain ⟨r, hr, hrP, hrid⟩ := mem_postRoots.mp ((contains_iff_mem _ _).mp h2)
    obtain ⟨r', hr', hr'id, hr'post⟩ := hsp c hc p hp
    have hrr : r = r' := pairwise_id_unique hids r hr r' hr' (hrid.trans hr'id.symm)
    have hcP : c.post_id = P := by rw [← hr'post, ← hrr, hrP]
    exact h1 ((contains_iff_mem _ _).mpr (mem_postRoots.mpr ⟨c, hc, hcP, rfl⟩))

theorem commentsDeadIds_postRoots {cs : List CommentRow} {P : Nat}
    (hids : cs.Pairwise (fun a b => a.id ≠ b.id))
    (hsp : ∀ c ∈ cs, ∀ p, c.parent_id = some p →
      ∃ r ∈ cs, r.id = p ∧ r.post_id = c.post_id) :
    commentsDeadIds cs ((cs.filter (fun c => c.post_id == P)).map (·.id))
      = (cs.filter (fun c => c.post_id == P)).map (·.id) :=
  foldl_fixed _ _ _ (fun _ _ => cascadeStep_fixed hids hsp)

/-- C2, amended: deleting a post removes exactly the comments of that post (the
parent cascade adds nothing new under the service invariant that a parent
reference stays inside one post), and exactly the `post_tags` rows of that post.
Users, categories and tags are untouched — and so is the `likes` table: the
polymorphic `likes.target_id` has no foreign key, so like rows referencing the
deleted post REMAIN (the original claim wrongly said they are removed). -/
theorem c2_post_delete_cascade_scope (db : Db) (P : Nat)
    (hids : db.comments.Pairwise (fun a b => a.id ≠ b.id))
    (hsp : db.commentsSamePost) :
    (postsDelete db P).posts = db.posts.filter (fun p => p.id != P) ∧
    (postsDelete db P).comments = db.comments.filter (fun c => c.post_id != P) ∧
    (postsDelete db P).post_tags = db.post_tags.filter (fun pt => pt.post_id != P) ∧
    (postsDelete db P).users = db.users ∧
    (postsDelete db P).categories = db.categories ∧
    (postsDelete db P).tags = db.tags ∧
    (postsDelete db P).likes = db.likes := by
  refine ⟨rfl, ?_, rfl, rfl, rfl, rfl, rfl⟩
  show db.comments.filter (fun c =>
      !(commentsDeadIds db.comments
        ((db.comments.filter (fun c => c.post_id == P)).map (·.id))).contains c.id) = _
  rw [commentsDeadIds_postRoots hids hsp]
  apply List.filter_congr
  intro c hc
  by_cases h : c.post_id = P
  · have hmem : c.id ∈ (db.comments.filter (fun c => c.post_id == P)).map (·.id) :=
      mem_postRoots.mpr ⟨c, hc, h, rfl⟩
    rw [(contains_iff_mem _ _).mpr hmem]
    simp [h]
  · have hnot : c.id ∉ (db.comments.filter (fun c => c.post_id == P)).map (·.id) := by
      intro hmem
      obtain ⟨r, hr, hrP, hrid⟩ := mem_postRoots.mp hmem
      exact h (by rw [← pairwise_id_unique hids r hr c hc hrid]; exact hrP)
    have : ((db.comments.filter (fun c => c.post_id == P)).map (·.id)).contains c.id = false := by
      cases hcc : ((db.comments.filter (fun c => c.post_id == P)).map (·.id)).contains c.id
      · rfl
      · exact absurd ((contains_iff_mem _ _).mp hcc) hnot
    rw [this]
    simp [h]

/-- C2, counterexample: in a state with one post and one like on that post,
deleting the post removes the post but leaves the like row referencing it — the
schema has no foreign key on `likes.target_id` — contradicting the claim that
every like row whose target is the deleted post is removed. -/
theorem c2_post_delete_cascade_scope_counterexample :
    (postsDelete dbPostWithLike 1).posts = [] ∧
    (postsDelete dbPostWithLike 1).likes = [exLikePost1] ∧
    exLikePost1.target_type = .post ∧ exLikePost1.target_id = 1 ∧
    (postsDelete dbPostWithLike 1).likes ≠ [] := by
  refine ⟨by rfl, by rfl, by rfl, by rfl, ?_⟩
  intro h
  exact absurd (h ▸ List.mem_singleton_self exLikePost1) (List.not_mem_nil exLikePost1)

/-- Witness for C2 at a concrete state: deleting post 1 of `dbTwoPosts` removes
exactly post 1, its tag association, and nothing else. -/
theorem c2_post_delete_cascade_scope_witness :
    (postsDelete dbTwoPosts 1).posts = dbTwoPosts.posts.filter (fun p => p.id != 1) ∧
    (postsDelete dbTwoPosts 1).comments = dbTwoPosts.comments.filter (fun c => c.post_id != 1) ∧
    (postsDelete dbTwoPosts 1).post_tags = dbTwoPosts.post_tags.filter (fun pt => pt.post_id != 1) ∧
    (postsDelete dbTwoPosts 1).users = dbTwoPosts.users ∧
    (postsDelete dbTwoPosts 1).categories = dbTwoPosts.categories ∧
    (postsDelete dbTwoPosts 1).tags = dbTwoPosts.tags ∧
    (postsDelete dbTwoPosts 1).likes = dbTwoPosts.likes :=
  c2_post_delete_cascade_scope dbTwoPosts 1 (by simp [dbTwoPosts])
    (by intro c hc; simp [dbTwoPosts] at hc)

theorem Db.eqFields {a b : Db} (h1 : a.users = b.users) (h2 : a.categories = b.categories)
    (h3 : a.posts = b.posts) (h4 : a.comments = b.comments) (h5 : a.tags = b.tags)
    (h6 : a.post_tags = b.post_tags) (h7 : a.likes = b.likes) (h8 : a.now = b.now) :
    a = b := by
  cases a; cases b; simp_all

/-- C3, counterexample: running the seed loader against a non-empty database does
NOT leave the seeded row counts unchanged — against a state with two users, the
users delete-then-insert leaves one admin row where there were two. -/
theorem c3_seed_counterexample :
    ∃ db', runSeeds dbTwoUsers = .ok db' ∧
      dbTwoUsers.users.length = 2 ∧ db'.users.length = 1 :=
  ⟨_, rfl, rfl, rfl⟩

/-- C3, amended: against any referentially consistent database whose posts table
is empty (in particular any database previously reset by the loader — posts of
existing users are cascaded away by the users seed, and a non-empty posts table
blocks the categories delete via RESTRICT), the seed loader succeeds and leaves
exactly the baseline rows — 4 categories, 4 tags, 1 admin user, none duplicated —
and re-running it reproduces the very same state (idempotence).  Against a
general non-empty database the row counts are not preserved (see the
counterexample: surplus rows are deleted). -/
theorem c3_seed_idempotent_baseline (db : Db) (hfk : db.fkConsistent)
    (hposts : db.posts = []) :
    ∃ db', runSeeds db = .ok db' ∧
      db'.categories.length = 4 ∧ db'.tags.length = 4 ∧ db'.users.length = 1 ∧
      (db'.categories.map (·.name)).Nodup ∧ (db'.tags.map (·.name)).Nodup ∧
      db'.users.map (·.email) = ["admin@community.local"] ∧
      runSeeds db' = .ok db' := by
  have hcom : db.comments = [] := by
    apply List.eq_nil_iff_forall_not_mem.mpr
    intro c hc
    obtain ⟨p, hp, -⟩ := (hfk.2.1 c hc).2
    rw [hposts] at hp
    exact absurd hp (List.not_mem_nil p)
  have hpt : db.post_tags = [] := by
    apply List.eq_nil_iff_forall_not_mem.mpr
    intro pt hpt
    obtain ⟨p, hp, -⟩ := (hfk.2.2.1 pt hpt).1
    rw [hposts] at hp
    exact absurd hp (List.not_mem_nil p)
  have hlk : db.likes.filter (fun l => !((db.users.map (fun u => u.id)).contains l.user_id)) = [] := by
    apply List.filter_eq_nil_iff.mpr
    intro l hl
    obtain ⟨u, hu, huid⟩ := hfk.2.2.2 l hl
    simp
    exact ⟨u, hu, huid⟩
  have hcats : categoriesSeed db = .ok { db with categories := seedCategories db.now } := by
    unfold categoriesSeed
    rw [if_neg (by rw [hposts]; simp)]
  have hus : usersSeed { db with categories := seedCategories db.now } =
      { users := [seedAdminUser db.now], categories := seedCategories db.now, posts := [],
        comments := [], tags := db.tags, post_tags := [], likes := [], now := db.now } := by
    simp only [usersSeed]
    refine Db.eqFields rfl rfl ?_ ?_ rfl ?_ ?_ rfl
    · simp [hposts]
    · simp [hcom]
    · simp [hpt]
    · simpa using hlk
  apply Exists.intro ({ users := [seedAdminUser db.now], categories := seedCategories db.now, posts := [], comments := [], tags := seedTags db.now, post_tags := [], likes := [], now := db.now } : Db)
  refine ⟨?_, rfl, rfl, rfl, ?_, ?_, rfl, rfl⟩
  · unfold runSeeds
    rw [hcats]
    show Except.ok (tagsSeed (usersSeed ({ db with categories := seedCategories db.now } : Db))) = _
    rw [hus]
    rfl
  · show (["공지사항", "자유게시판", "Q&A", "이벤트"] : List String).Nodup
    decide
  · show (["공지", "정보", "질문", "이벤트"] : List String).Nodup
    decide

/-- Witness for C3 at a concrete state: on `dbOneUser` (no posts, referentially
consistent) the loader succeeds, yields the baseline, and is idempotent. -/
theorem c3_seed_idempotent_baseline_witness :
    ∃ db', runSeeds dbOneUser = .ok db' ∧
      db'.categories.length = 4 ∧ db'.tags.length = 4 ∧ db'.users.length = 1 ∧
      (db'.categories.map (·.name)).Nodup ∧ (db'.tags.map (·.name)).Nodup ∧
      db'.users.map (·.email) = ["admin@community.local"] ∧
      runSeeds db' = .ok db' :=
  c3_seed_idempotent_baseline dbOneUser
    (by refine ⟨?_, ?_, ?_, ?_⟩ <;> intro x hx <;> simp [dbOneUser] at hx) rfl

theorem le_foldl_max (l : List Nat) (a : Nat) : a ≤ l.foldl max a := by
  induction l generalizing a with
  | nil => exact Nat.le_refl a
  | cons b t ih => exact Nat.le_trans (Nat.le_max_left a b) (ih (max a b))

theorem mem_le_foldl_max {l : List Nat} {x : Nat} (h : x ∈ l) (a : Nat) :
    x ≤ l.foldl max a := by
  induction l generalizing a with
  | nil => exact absurd h (List.not_mem_nil x)
  | cons b t ih =>
    rcases List.mem_cons.mp h with rfl | h'
    · exact Nat.le_trans (Nat.le_max_right a x) (le_foldl_max t (max a x))
    · exact ih h' (max a b)

theorem freshId_gt_mem {ids : List Nat} {x : Nat} (h : x ∈ ids) : x < freshId ids :=
  Nat.lt_succ_of_le (mem_le_foldl_max h 0)

theorem commentCreate_ok {db : Db} {postId userId : Nat} {content : String}
    {parentId : Option Nat} {c : CommentRow} {db' : Db}
    (h : CommentService.create db postId userId content parentId = .ok (c, db')) :
    db'.comments = db.comments ++ [c] ∧ c.id = freshId (db.comments.map (·.id)) ∧
      c.parent_id = parentId ∧
      (∀ pid, parentId = some pid →
        ∃ parent ∈ db.comments, parent.id = pid ∧ parent.post_id = postId ∧
          parent.parent_id = none) := by
  unfold CommentService.create at h
  split at h
  · exact absurd h (by simp)
  · cases hpid : parentId with
    | none =>
      rw [hpid] at h
      simp only [Except.ok.injEq, Prod.mk.injEq] at h
      refine ⟨by rw [← h.2, ← h.1], by rw [← h.1], by rw [← h.1], ?_⟩
      intro pid hcontra
      exact absurd hcontra (by simp)
    | some pid =>
      rw [hpid] at h
      dsimp only at h
      split at h
      · exact absurd h (by simp)
      · rename_i parent hf
        split at h
        · rename_i hcond
          simp only [Except.ok.injEq, Prod.mk.injEq] at h
          have hpe : (parent.id == pid) = true :=
            List.find?_some (p := fun x : CommunityBoard.CommentRow => x.id == pid) hf
          have hc : parent.post_id = postId ∧ parent.parent_id = none := by
            simpa using hcond
          refine ⟨by rw [← h.2, ← h.1], by rw [← h.1], by rw [← h.1], ?_⟩
          intro pid' hpid'
          have hpp : pid' = pid := by
            injection hpid' with hv
            exact hv.symm
          refine ⟨parent, List.mem_of_find?_eq_some hf, ?_, hc.1, hc.2⟩
          rw [hpp]
          exact eq_of_beq hpe
        · exact absurd h (by simp)

theorem commentCreate_preserves {db : Db} {postId userId : Nat} {content : String}
    {parentId : Option Nat} {c : CommentRow} {db' : Db}
    (hwf : db.commentsKeyWF) (hol : db.oneLevelComments)
    (h : CommentService.create db postId userId content parentId = .ok (c, db')) :
    db'.commentsKeyWF ∧ db'.oneLevelComments := by
  obtain ⟨happ, hid, hpar, hparent⟩ := commentCreate_ok h
  have hfresh : ∀ a ∈ db.comments, a.id ≠ c.id := by
    intro a ha heq
    have : a.id < freshId (db.comments.map (·.id)) :=
      freshId_gt_mem (List.mem_map.mpr ⟨a, ha, rfl⟩)
    rw [heq, hid] at this
    exact Nat.lt_irrefl _ this
  refine ⟨⟨?_, ?_⟩, ?_⟩
  · rw [happ]
    refine List.pairwise_append.mpr ⟨hwf.1, List.pairwise_singleton _ _, ?_⟩
    intro a ha b hb
    rw [List.mem_singleton.mp hb]
    exact hfresh a ha
  · intro x hx p hp
    rw [happ] at hx ⊢
    rcases List.mem_append.mp hx with hx' | hx'
    · obtain ⟨r, hr, hrid⟩ := hwf.2 x hx' p hp
      exact ⟨r, List.mem_append_left _ hr, hrid⟩
    · rw [List.mem_singleton.mp hx'] at hp
      rw [hpar] at hp
      obtain ⟨parent, hpm, hpid, -, -⟩ := hparent p hp
      exact ⟨parent, List.mem_append_left _ hpm, hpid⟩
  · intro x hx p hp r hr hrid
    rw [happ] at hx hr
    rcases List.mem_append.mp hx with hx' | hx' <;>
      rcases List.mem_append.mp hr with hr' | hr'
    · exact hol x hx' p hp r hr' hrid
    · rw [List.mem_singleton.mp hr'] at hrid
      obtain ⟨r0, hr0, hr0id⟩ := hwf.2 x hx' p hp
      exact absurd (hr0id.trans hrid.symm) (hfresh r0 hr0)
    · rw [List.mem_singleton.mp hx'] at hp
      rw [hpar] at hp
      obtain ⟨parent, hpm, hpid, -, hptop⟩ := hparent p hp
      have : r = parent := pairwise_id_unique hwf.1 r hr' parent hpm (hrid.trans hpid.symm)
      rw [this]
      exact hptop
    · rw [List.mem_singleton.mp hx'] at hp
      rw [List.mem_singleton.mp hr'] at hrid
      rw [hpar] at hp
      obtain ⟨parent, hpm, hpid, -, -⟩ := hparent p hp
      exact absurd (hpid.trans hrid.symm) (hfresh parent hpm)

theorem runCreates_preserves (rs : List CommentService.Req) (db : Db)
    (hwf : db.commentsKeyWF) (hol : db.oneLevelComments) :
    (CommentService.runCreates db rs).commentsKeyWF ∧
      (CommentService.runCreates db rs).oneLevelComments := by
  induction rs generalizing db with
  | nil => exact ⟨hwf, hol⟩
  | cons r t ih =>
    show (CommentService.runCreates (CommentService.createStep db r) t).commentsKeyWF ∧ _
    have hstep : (CommentService.createStep db r).commentsKeyWF ∧
        (CommentService.createStep db r).oneLevelComments := by
      unfold CommentService.createStep
      cases hc : CommentService.create db r.postId r.userId r.content r.parentId with
      | ok v =>
        obtain ⟨c, db'⟩ := v
        exact commentCreate_preserves hwf hol hc
      | error e => exact ⟨hwf, hol⟩
    exact ih _ hstep.1 hstep.2

/-- C8: the comment service's one-level cap (modelled from the spec, the service
source being outside the snapshot).  The gate admits a parent only when it lives
in the target post and is itself top-level, rejects every other supplied parent
with `InvalidParent`, and consequently, starting from any well-keyed state
satisfying the one-level invariant, no sequence of create calls can ever store a
comment whose `parent_id` references a reply. -/
theorem c8_one_level_comment_nesting (db : Db) (rs : List CommentService.Req)
    (hwf : db.commentsKeyWF) (hol : db.oneLevelComments) :
    (CommentService.runCreates db rs).oneLevelComments ∧
    (∀ postId userId content pid c db',
      CommentService.create db postId userId content (some pid) = .ok (c, db') →
      ∃ parent ∈ db.comments, parent.id = pid ∧ parent.post_id = postId ∧
        parent.parent_id = none) ∧
    (∀ postId userId content pid,
      db.posts.any (fun p => p.id == postId) = true →
      (∀ parent ∈ db.comments, parent.id = pid →
        ¬(parent.post_id = postId ∧ parent.parent_id = none)) →
      CommentService.create db postId userId content (some pid) = .error .invalidParent) := by
  refine ⟨(runCreates_preserves rs db hwf hol).2, ?_, ?_⟩
  · intro postId userId content pid c db' h
    exact (commentCreate_ok h).2.2.2 pid rfl
  · intro postId userId content pid hpost hrej
    unfold CommentService.create
    rw [if_neg (by simp [hpost])]
    dsimp only
    cases hf : db.comments.find? (fun x => x.id == pid) with
    | none => rfl
    | some parent =>
      have hpe : (parent.id == pid) = true :=
        List.find?_some (p := fun x : CommunityBoard.CommentRow => x.id == pid) hf
      have hcond : ¬((parent.post_id == postId && parent.parent_id.isNone) = true) := by
        intro hcond
        exact hrej parent (List.mem_of_find?_eq_some hf) (eq_of_beq hpe) (by simpa using hcond)
      dsimp only
      rw [if_neg hcond]

/-- Witness for C8 at a concrete state: from `dbTwoPosts` (no comments yet), a
top-level comment followed by a reply to it leaves the one-level invariant
intact. -/
theorem c8_one_level_comment_nesting_witness :
    (CommentService.runCreates dbTwoPosts
      [{ postId := 1, userId := 1, content := "hello", parentId := none },
       { postId := 1, userId := 1, content := "reply", parentId := some 1 }]).oneLevelComments :=
  (c8_one_level_comment_nesting dbTwoPosts
    [{ postId := 1, userId := 1, content := "hello", parentId := none },
     { postId := 1, userId := 1, content := "reply", parentId := some 1 }]
    ⟨by simp [dbTwoPosts], by intro c hc; simp [dbTwoPosts] at hc⟩
    (by intro c hc; simp [dbTwoPosts] at hc)).1

theorem likeStep_preserves (db : Db) (op : LikeTableOp) (h : db.likesUnique) :
    (likeStep db op).likesUnique := by
  cases op with
  | insert u tt tid =>
    unfold likeStep
    dsimp only
    split
    · rename_i db' hin
      unfold likesInsert at hin
      split at hin
      · exact absurd hin (by simp)
      · split at hin
        · exact absurd hin (by simp)
        · rename_i hnodup
          simp only [Except.ok.injEq] at hin
          rw [← hin]
          show List.Pairwise _ (db.likes ++ [_])
          refine List.pairwise_append.mpr ⟨h, List.pairwise_singleton _ _, ?_⟩
          intro a ha b hb
          rw [List.mem_singleton.mp hb]
          rintro ⟨h1, h2, h3⟩
          apply hnodup
          refine List.any_eq_true.mpr ⟨a, ha, ?_⟩
          simp [h1, h2, h3]
    · exact h
  | deleteById id =>
    show List.Pairwise _ (db.likes.filter (fun l => l.id != id))
    exact List.Pairwise.sublist (List.filter_sublist _) h
  | deleteByTuple u tt tid =>
    show List.Pairwise _ (db.likes.filter
      (fun l => !(l.user_id == u && l.target_type == tt && l.target_id == tid)))
    exact List.Pairwise.sublist (List.filter_sublist _) h
  | userDeleteCascade u =>
    show List.Pairwise _ (db.likes.filter (fun l => l.user_id != u))
    exact List.Pairwise.sublist (List.filter_sublist _) h

/-- C9: the likes table holds at most one row per (user, target type, target id)
tuple in every state reachable by likes-table operations — the guarded insert
(unique constraint of the likes migration), unlikes, and the user-delete cascade
all preserve the invariant — and an insert that duplicates an existing tuple is
rejected with an error instead of producing a row. -/
theorem c9_likes_tuple_unique (db : Db) (ops : List LikeTableOp) (h : db.likesUnique) :
    (ops.foldl likeStep db).likesUnique ∧
    (∀ u tt tid,
      db.likes.any (fun l => l.user_id == u && l.target_type == tt && l.target_id == tid) = true →
      ∃ e, likesInsert db u tt tid = .error e) := by
  constructor
  · induction ops generalizing db with
    | nil => exact h
    | cons op t ih => exact ih (likeStep db op) (likeStep_preserves db op h)
  · intro u tt tid hdup
    unfold likesInsert
    by_cases hu : (!db.users.any (fun x => x.id == u)) = true
    · exact ⟨.fkViolation "likes", by rw [if_pos hu]⟩
    · exact ⟨.uniqueViolation "likes" "user_id_target_type_target_id",
        by rw [if_neg hu, if_pos hdup]⟩

/-- Witness for C9 at a concrete state: starting from one stored like, a
duplicate insert, a fresh insert and an unlike leave the tuple-uniqueness
invariant intact. -/
theorem c9_likes_tuple_unique_witness :
    (([LikeTableOp.insert 1 .post 1, LikeTableOp.insert 1 .comment 5,
        LikeTableOp.deleteByTuple 1 .post 1].foldl likeStep dbPostWithLike)).likesUnique :=
  (c9_likes_tuple_unique dbPostWithLike
    [LikeTableOp.insert 1 .post 1, LikeTableOp.insert 1 .comment 5,
      LikeTableOp.deleteByTuple 1 .post 1]
    (by simp [Db.likesUnique, dbPostWithLike])).1

end CommunityBoard
